import Mathlib

/-!
A verification development for the `kolor` color-conversion library.

The crate root (`src/lib.rs`) declares the modules `details::color`,
`details::conversion`, `details::cat`, `details::xyz` and
`details::transform`, but their sources are not part of this tree; only the
crate root, the integration tests (`tests/smart_detection.rs`) and the
`oklab` example are.  The definitions below therefore model the missing
modules from the specification, using exact rational arithmetic (`ℚ`) for
the library's feature-selectable floating-point scalar type.  Concrete
numeric constants (the BT.709 / ACES AP0 / ACES AP1 primaries and the D65
white point in XYZ) are the ones the specification and the integration
tests pin down.
-/

namespace Kolor

/-- Modelled from the spec: the absolute componentwise classification
tolerance (`1e-4`) used by smart detection. -/
def canonTol : ℚ := 1 / 10000

/-- Absolute value on the scalar type, written so it reduces in the
kernel. -/
def qAbs (a : ℚ) : ℚ := if a ≤ 0 then -a else a

/-- Scalar approximate equality: within `canonTol` absolutely. -/
def qApprox (a b : ℚ) : Bool := qAbs (a - b) ≤ canonTol

/-- An xy chromaticity coordinate pair. -/
structure Xy where
  x : ℚ
  y : ℚ
deriving DecidableEq, Repr

/-- Componentwise approximate equality of chromaticity pairs. -/
def xyApprox (a b : Xy) : Bool := qApprox a.x b.x && qApprox a.y b.y

/-- A 3-component vector over the library scalar type. -/
structure Vec3 where
  x : ℚ
  y : ℚ
  z : ℚ
deriving DecidableEq, Repr

/-- Componentwise approximate equality of 3-vectors. -/
def vecApprox (a b : Vec3) : Bool :=
  qApprox a.x b.x && qApprox a.y b.y && qApprox a.z b.z

/-- Modelled from the spec: the single error kind the library produces
(`ColorError::CanonicalizationFailed`, from `details::color`). -/
inductive ColorError where
  | CanonicalizationFailed
deriving DecidableEq, Repr

/-- Modelled from the spec: `RgbPrimaries` from `details::color` — either a
named standard or `Custom` raw chromaticities.  The named variants modelled
are the ones whose coordinates the spec and the integration tests fix
(BT.709, ACES AP0, ACES AP1); further named standards exist in the crate
but their coordinates are not recorded in this tree. -/
inductive RgbPrimaries where
  | Bt709
  | AcesAp0
  | AcesAp1
  | Custom (r g b : Xy)
deriving DecidableEq, Repr

/-- BT.709 primaries, exact values from `tests/smart_detection.rs`. -/
def bt709Xy : Xy × Xy × Xy :=
  (⟨0.64, 0.33⟩, ⟨0.30, 0.60⟩, ⟨0.15, 0.06⟩)

/-- ACES AP0 primaries, exact values from `tests/smart_detection.rs`. -/
def acesAp0Xy : Xy × Xy × Xy :=
  (⟨0.7347, 0.2653⟩, ⟨0.0, 1.0⟩, ⟨0.0001, -0.0770⟩)

/-- ACES AP1 primaries, exact values from `tests/smart_detection.rs`. -/
def acesAp1Xy : Xy × Xy × Xy :=
  (⟨0.713, 0.293⟩, ⟨0.165, 0.830⟩, ⟨0.128, 0.044⟩)

/-- Modelled from the spec: the fixed table of named primaries standards,
scanned linearly in order (first match within tolerance wins). -/
def primariesTable : List (RgbPrimaries × (Xy × Xy × Xy)) :=
  [(.Bt709, bt709Xy), (.AcesAp0, acesAp0Xy), (.AcesAp1, acesAp1Xy)]

/-- Componentwise approximate equality of primaries triples. -/
def tripleApprox (a b : Xy × Xy × Xy) : Bool :=
  xyApprox a.1 b.1 && xyApprox a.2.1 b.2.1 && xyApprox a.2.2 b.2.2

/-- Modelled from the spec: `RgbPrimaries::from_rgb_xy` — classify raw
coordinates by linear scan against the table of named standards, returning
the named variant when all three pairs fall within the absolute tolerance
componentwise, otherwise `Custom`. -/
def RgbPrimaries.from_rgb_xy (r g b : Xy) : RgbPrimaries :=
  match primariesTable.find? (fun e => tripleApprox (r, g, b) e.2) with
  | some e => e.1
  | none => .Custom r g b

/-- Modelled from the spec: `RgbPrimaries::canonicalize` — re-runs the
classification on a `Custom` value; the Rust method mutates the receiver in
place and returns `Result<(), ColorError>`, modelled here as returning the
updated value together with the outcome. -/
def RgbPrimaries.canonicalize :
    RgbPrimaries → RgbPrimaries × Except ColorError Unit
  | .Custom r g b =>
    match RgbPrimaries.from_rgb_xy r g b with
    | .Custom _ _ _ => (.Custom r g b, .error .CanonicalizationFailed)
    | p => (p, .ok ())
  | p => (p, .ok ())

/-- Modelled from the spec: `WhitePoint` from `details::color` — a named
standard or a `Custom` XYZ tristimulus value.  The only named variant whose
tristimulus value this tree records is D65. -/
inductive WhitePoint where
  | D65
  | Custom (v : Vec3)
deriving DecidableEq, Repr

/-- The D65 white point in XYZ, exact values from
`tests/smart_detection.rs`. -/
def d65Xyz : Vec3 := ⟨0.95047, 1.0, 1.08883⟩

/-- Modelled from the spec: the fixed table of named white-point standards,
stored as XYZ tristimulus values and scanned linearly. -/
def whitePointTable : List (WhitePoint × Vec3) :=
  [(.D65, d65Xyz)]

/-- Modelled from the spec: conversion of an xy chromaticity to an XYZ
tristimulus vector normalized so the Y component is 1
(`X = x/y`, `Y = 1`, `Z = (1 - x - y)/y`). -/
def xyToXyz (x y : ℚ) : Vec3 := ⟨x / y, 1, (1 - x - y) / y⟩

/-- Modelled from the spec: `WhitePoint::from_xy` — converts the input xy
chromaticity to XYZ and classifies it against the table of named standards
in XYZ space, within the absolute tolerance componentwise. -/
def WhitePoint.from_xy (x y : ℚ) : WhitePoint :=
  match whitePointTable.find? (fun e => vecApprox (xyToXyz x y) e.2) with
  | some e => e.1
  | none => .Custom (xyToXyz x y)

/-- Modelled from the spec: `WhitePoint::canonicalize` — re-runs the XYZ
classification on a `Custom` value, modelled functionally like
`RgbPrimaries.canonicalize`. -/
def WhitePoint.canonicalize :
    WhitePoint → WhitePoint × Except ColorError Unit
  | .Custom v =>
    match whitePointTable.find? (fun e => vecApprox v e.2) with
    | some e => (e.1, .ok ())
    | none => (.Custom v, .error .CanonicalizationFailed)
  | w => (w, .ok ())

/-! ### The 3x3 matrix type used by the conversion engine -/

/-- A 3x3 matrix over the library scalar type, row-major
(`mij` is row `i`, column `j`). -/
structure Mat3 where
  m00 : ℚ
  m01 : ℚ
  m02 : ℚ
  m10 : ℚ
  m11 : ℚ
  m12 : ℚ
  m20 : ℚ
  m21 : ℚ
  m22 : ℚ
deriving DecidableEq, Repr

attribute [ext] Vec3 Mat3

/-- Matrix-vector multiplication. -/
def Mat3.mulVec (m : Mat3) (v : Vec3) : Vec3 :=
  ⟨m.m00 * v.x + m.m01 * v.y + m.m02 * v.z,
   m.m10 * v.x + m.m11 * v.y + m.m12 * v.z,
   m.m20 * v.x + m.m21 * v.y + m.m22 * v.z⟩

/-- Matrix-matrix multiplication. -/
def Mat3.mul (m n : Mat3) : Mat3 :=
  ⟨m.m00 * n.m00 + m.m01 * n.m10 + m.m02 * n.m20,
   m.m00 * n.m01 + m.m01 * n.m11 + m.m02 * n.m21,
   m.m00 * n.m02 + m.m01 * n.m12 + m.m02 * n.m22,
   m.m10 * n.m00 + m.m11 * n.m10 + m.m12 * n.m20,
   m.m10 * n.m01 + m.m11 * n.m11 + m.m12 * n.m21,
   m.m10 * n.m02 + m.m11 * n.m12 + m.m12 * n.m22,
   m.m20 * n.m00 + m.m21 * n.m10 + m.m22 * n.m20,
   m.m20 * n.m01 + m.m21 * n.m11 + m.m22 * n.m21,
   m.m20 * n.m02 + m.m21 * n.m12 + m.m22 * n.m22⟩

/-- The identity matrix. -/
def Mat3.id : Mat3 := ⟨1, 0, 0, 0, 1, 0, 0, 0, 1⟩

instance : Mul Mat3 := ⟨Mat3.mul⟩

instance : One Mat3 := ⟨Mat3.id⟩

instance : Monoid Mat3 where
  mul_assoc m n k := by
    show Mat3.mul (Mat3.mul m n) k = Mat3.mul m (Mat3.mul n k)
    ext <;> simp [Mat3.mul] <;> ring
  one_mul m := by
    show Mat3.mul Mat3.id m = m
    ext <;> simp [Mat3.mul, Mat3.id]
  mul_one m := by
    show Mat3.mul m Mat3.id = m
    ext <;> simp [Mat3.mul, Mat3.id]

/-- A diagonal matrix. -/
def Mat3.diag (a b c : ℚ) : Mat3 := ⟨a, 0, 0, 0, b, 0, 0, 0, c⟩

/-- The determinant, by cofactor expansion along the first row. -/
def Mat3.det (m : Mat3) : ℚ :=
  m.m00 * (m.m11 * m.m22 - m.m12 * m.m21) -
    m.m01 * (m.m10 * m.m22 - m.m12 * m.m20) +
    m.m02 * (m.m10 * m.m21 - m.m11 * m.m20)

/-- The inverse as the adjugate divided by the determinant (garbage when
the determinant is zero, mirroring the numeric library's behavior on
singular input). -/
def Mat3.inverse (m : Mat3) : Mat3 :=
  ⟨(m.m11 * m.m22 - m.m12 * m.m21) / m.det,
   -(m.m01 * m.m22 - m.m02 * m.m21) / m.det,
   (m.m01 * m.m12 - m.m02 * m.m11) / m.det,
   -(m.m10 * m.m22 - m.m12 * m.m20) / m.det,
   (m.m00 * m.m22 - m.m02 * m.m20) / m.det,
   -(m.m00 * m.m12 - m.m02 * m.m10) / m.det,
   (m.m10 * m.m21 - m.m11 * m.m20) / m.det,
   -(m.m00 * m.m21 - m.m01 * m.m20) / m.det,
   (m.m00 * m.m11 - m.m01 * m.m10) / m.det⟩

/-! ### The conversion engine -/

/-- Modelled from the spec: identifiers for the named non-linear transform
functions of `details::transform` (`ColorConversion` carries transform
identifiers, not closures); only the two transforms the claims exercise are
modelled, their numeric bodies kept abstract. -/
inductive TransformId where
  | Srgb
  | Oklab
deriving DecidableEq, Repr

/-- A forward/inverse pair of non-linear transform functions. -/
structure TransformPair where
  fwd : Vec3 → Vec3
  inv : Vec3 → Vec3

/-- Modelled from the spec: a `ColorSpace` as a flat description — RGB
primaries, white point, and an optional non-linear transform whose (linear)
reference space is given by the primaries and white point. -/
structure ColorSpace where
  primaries : RgbPrimaries
  whitePoint : WhitePoint
  transform : Option TransformId
deriving DecidableEq, Repr

/-- The fixed chromaticities of a primaries value (table constants for
named variants, the payload for `Custom`). -/
def RgbPrimaries.values : RgbPrimaries → Xy × Xy × Xy
  | .Bt709 => bt709Xy
  | .AcesAp0 => acesAp0Xy
  | .AcesAp1 => acesAp1Xy
  | .Custom r g b => (r, g, b)

/-- The XYZ tristimulus value of a white point. -/
def WhitePoint.values : WhitePoint → Vec3
  | .D65 => d65Xyz
  | .Custom v => v

/-- Modelled from the spec: `details::xyz` matrix derivation — each
primary's xy is lifted to an XYZ vector with Y = 1, assembled as the
columns of a matrix `P`, and the columns are scaled by `S = P⁻¹ · white`
so that RGB (1,1,1) maps to the white point's XYZ value. -/
def rgb_to_xyz (p : Xy × Xy × Xy) (wp : Vec3) : Mat3 :=
  let cr := xyToXyz p.1.x p.1.y
  let cg := xyToXyz p.2.1.x p.2.1.y
  let cb := xyToXyz p.2.2.x p.2.2.y
  let pm : Mat3 := ⟨cr.x, cg.x, cb.x, cr.y, cg.y, cb.y, cr.z, cg.z, cb.z⟩
  let s := pm.inverse.mulVec wp
  pm * Mat3.diag s.x s.y s.z

/-- Modelled from the spec: `details::cat` chromatic adaptation — white
points within floating tolerance yield the identity matrix exactly;
otherwise the von-Kries matrix `ConeInv * diag(dstLMS/srcLMS) * Cone`
for the given cone-response matrix. -/
def cat (cone : Mat3) (src dst : Vec3) : Mat3 :=
  if vecApprox src dst then 1
  else
    cone.inverse *
      Mat3.diag ((cone.mulVec dst).x / (cone.mulVec src).x)
        ((cone.mulVec dst).y / (cone.mulVec src).y)
        ((cone.mulVec dst).z / (cone.mulVec src).z) * cone

/-- Modelled from the spec: the composed linear matrix of a conversion —
source RGB to XYZ, chromatic adaptation between the two white points, and
XYZ to destination RGB, pre-multiplied into a single matrix. -/
def linearMatrix (cone : Mat3) (src dst : ColorSpace) : Mat3 :=
  (rgb_to_xyz dst.primaries.values dst.whitePoint.values).inverse *
    cat cone src.whitePoint.values dst.whitePoint.values *
    rgb_to_xyz src.primaries.values src.whitePoint.values

/-- Apply the forward direction of an optional transform. -/
def applyFwd (interp : TransformId → TransformPair) :
    Option TransformId → Vec3 → Vec3
  | some t, v => (interp t).fwd v
  | none, v => v

/-- Apply the inverse direction of an optional transform. -/
def applyInv (interp : TransformId → TransformPair) :
    Option TransformId → Vec3 → Vec3
  | some t, v => (interp t).inv v
  | none, v => v

/-- Modelled from the spec: the conversion engine — same-space conversion
is special-cased to the identity; otherwise apply the source's inverse
transform, one pre-composed linear matrix, and the destination's forward
transform.  The assignment of numeric bodies to transform identifiers is a
parameter (`interp`), as is the cone-response matrix used for chromatic
adaptation. -/
def convert (interp : TransformId → TransformPair) (cone : Mat3)
    (src dst : ColorSpace) (v : Vec3) : Vec3 :=
  if src = dst then v
  else
    applyFwd interp dst.transform
      ((linearMatrix cone src dst).mulVec (applyInv interp src.transform v))

/-- Modelled from the spec: the non-linear sRGB color space
(`spaces::ENCODED_SRGB`): BT.709 primaries, D65 white point, sRGB
transfer function. -/
def encodedSrgb : ColorSpace := ⟨.Bt709, .D65, some .Srgb⟩

/-- Modelled from the spec: the Oklab color space (`spaces::OK_LAB`):
defined over the linear BT.709/D65 reference space with the Oklab
transform. -/
def okLab : ColorSpace := ⟨.Bt709, .D65, some .Oklab⟩

/-- Modelled from the spec: the linear sRGB color space
(`spaces::LINEAR_SRGB`): BT.709 primaries, D65 white point, no
transform. -/
def linearSrgb : ColorSpace := ⟨.Bt709, .D65, none⟩

/-- A transform assignment mapping every identifier to the identity pair;
used to instantiate the engine at concrete inputs. -/
def idInterp : TransformId → TransformPair :=
  fun _ => ⟨fun u => u, fun u => u⟩

/-- Modelled from the spec: a `Color` is a space tag plus a 3-component
vector. -/
structure Color where
  space : ColorSpace
  value : Vec3
deriving Repr

/-- Modelled from the spec: `Color::srgb` constructs a color in the
non-linear sRGB space. -/
def Color.srgb (r g b : ℚ) : Color := ⟨encodedSrgb, ⟨r, g, b⟩⟩

/-- Modelled from the spec: `Color::to` converts a color to a destination
space through the conversion engine. -/
def Color.to (c : Color) (interp : TransformId → TransformPair)
    (cone : Mat3) (dst : ColorSpace) : Color :=
  ⟨dst, convert interp cone c.space dst c.value⟩



/-! ### Basic lemmas about the approximate-equality predicates -/

theorem qAbs_le_iff (x c : ℚ) : qAbs x ≤ c ↔ -c ≤ x ∧ x ≤ c := by
  unfold qAbs
  split_ifs with h
  · constructor
    · intro h2
      exact ⟨by linarith, by linarith⟩
    · intro h2
      linarith [h2.1]
  · constructor
    · intro h2
      exact ⟨by linarith, h2⟩
    · intro h2
      exact h2.2

theorem qApprox_iff (a b : ℚ) :
    qApprox a b = true ↔ -canonTol ≤ a - b ∧ a - b ≤ canonTol := by
  unfold qApprox
  rw [decide_eq_true_eq]
  exact qAbs_le_iff _ _

theorem qApprox_refl (a : ℚ) : qApprox a a = true := by
  rw [qApprox_iff]
  norm_num [canonTol]

theorem vecApprox_refl (v : Vec3) : vecApprox v v = true := by
  simp [vecApprox, qApprox_refl]

/-- A value within tolerance of both `b` and `c` forces `b` and `c` to be
within twice the tolerance of each other. -/
theorem qApprox_both (a b c : ℚ) (h1 : qApprox a b = true)
    (h2 : qApprox a c = true) : qAbs (b - c) ≤ 2 * canonTol := by
  rw [qApprox_iff] at h1 h2
  rw [qAbs_le_iff]
  constructor <;> linarith [h1.1, h1.2, h2.1, h2.2]

/-- The red-x component of a matching primaries triple is within tolerance. -/
theorem tripleApprox_redx (t s : Xy × Xy × Xy) (h : tripleApprox t s = true) :
    qApprox t.1.x s.1.x = true := by
  simp only [tripleApprox, xyApprox, Bool.and_eq_true] at h
  exact h.1.1.1

/-- No triple matches two table standards whose red-x coordinates lie more
than twice the tolerance apart. -/
theorem tripleApprox_both (t s1 s2 : Xy × Xy × Xy)
    (h1 : tripleApprox t s1 = true) (h2 : tripleApprox t s2 = true) :
    qAbs (s1.1.x - s2.1.x) ≤ 2 * canonTol :=
  qApprox_both _ _ _ (tripleApprox_redx _ _ h1) (tripleApprox_redx _ _ h2)

/-- A triple matching one standard cannot match another whose red-x
coordinate lies more than twice the tolerance away. -/
theorem tripleApprox_false_of_far (t s1 s2 : Xy × Xy × Xy)
    (h : tripleApprox t s2 = true)
    (hfar : ¬ qAbs (s1.1.x - s2.1.x) ≤ 2 * canonTol) :
    tripleApprox t s1 = false := by
  cases hb : tripleApprox t s1 with
  | false => rfl
  | true => exact absurd (tripleApprox_both t s1 s2 hb h) hfar

/-! ### Evaluation lemmas for the classification scan -/

theorem from_rgb_xy_of_some (r g b : Xy) (e : RgbPrimaries × (Xy × Xy × Xy))
    (h : primariesTable.find? (fun e => tripleApprox (r, g, b) e.2) = some e) :
    RgbPrimaries.from_rgb_xy r g b = e.1 := by
  unfold RgbPrimaries.from_rgb_xy
  rw [h]

theorem from_rgb_xy_of_none (r g b : Xy)
    (h : primariesTable.find? (fun e => tripleApprox (r, g, b) e.2) = none) :
    RgbPrimaries.from_rgb_xy r g b = .Custom r g b := by
  unfold RgbPrimaries.from_rgb_xy
  rw [h]

/-- Core classification lemma: coordinates within tolerance of a table
standard classify as that standard (the catalog's red-x coordinates are
pairwise more than twice the tolerance apart, so the linear scan cannot
stop at an earlier entry). -/
theorem from_rgb_xy_classifies (r g b : Xy) (p : RgbPrimaries)
    (vals : Xy × Xy × Xy) (hmem : (p, vals) ∈ primariesTable)
    (h : tripleApprox (r, g, b) vals = true) :
    RgbPrimaries.from_rgb_xy r g b = p := by
  simp only [primariesTable, List.mem_cons, List.not_mem_nil, or_false,
    Prod.mk.injEq] at hmem
  rcases hmem with ⟨hp, hv⟩ | ⟨hp, hv⟩ | ⟨hp, hv⟩ <;> subst hp <;> subst hv
  · exact from_rgb_xy_of_some _ _ _ (.Bt709, bt709Xy)
      (by simp only [primariesTable, List.find?_cons_of_pos, h])
  · have hf1 : tripleApprox (r, g, b) bt709Xy = false :=
      tripleApprox_false_of_far _ bt709Xy acesAp0Xy h
        (by norm_num [qAbs, canonTol, bt709Xy, acesAp0Xy])
    exact from_rgb_xy_of_some _ _ _ (.AcesAp0, acesAp0Xy)
      (by simp only [primariesTable, List.find?_cons_of_neg, hf1,
            Bool.false_eq_true, not_false_iff, List.find?_cons_of_pos, h])
  · have hf1 : tripleApprox (r, g, b) bt709Xy = false :=
      tripleApprox_false_of_far _ bt709Xy acesAp1Xy h
        (by norm_num [qAbs, canonTol, bt709Xy, acesAp1Xy])
    have hf2 : tripleApprox (r, g, b) acesAp0Xy = false :=
      tripleApprox_false_of_far _ acesAp0Xy acesAp1Xy h
        (by norm_num [qAbs, canonTol, acesAp0Xy, acesAp1Xy])
    exact from_rgb_xy_of_some _ _ _ (.AcesAp1, acesAp1Xy)
      (by simp only [primariesTable, List.find?_cons_of_neg, hf1, hf2,
            Bool.false_eq_true, not_false_iff, List.find?_cons_of_pos, h])

/-- Coordinates matching no table standard classify as `Custom`. -/
theorem from_rgb_xy_rejects (r g b : Xy)
    (h : ∀ e ∈ primariesTable, tripleApprox (r, g, b) e.2 = false) :
    RgbPrimaries.from_rgb_xy r g b = .Custom r g b := by
  refine from_rgb_xy_of_none _ _ _ (List.find?_eq_none.mpr ?_)
  intro e he
  simp [h e he]

theorem tripleApprox_refl (t : Xy × Xy × Xy) : tripleApprox t t = true := by
  simp [tripleApprox, xyApprox, qApprox_refl]

/-- White-point classification: an xy input whose XYZ image is within
tolerance of a table standard's XYZ definition classifies as that
standard. -/
theorem from_xy_classifies (x y : ℚ) (w : WhitePoint) (xyz : Vec3)
    (hmem : (w, xyz) ∈ whitePointTable)
    (h : vecApprox (xyToXyz x y) xyz = true) :
    WhitePoint.from_xy x y = w := by
  simp only [whitePointTable, List.mem_cons, List.not_mem_nil, or_false,
    Prod.mk.injEq] at hmem
  rcases hmem with ⟨hw, hv⟩
  subst hw
  subst hv
  unfold WhitePoint.from_xy
  rw [show whitePointTable.find? (fun e => vecApprox (xyToXyz x y) e.2) =
    some (.D65, d65Xyz) from by
      simp only [whitePointTable, List.find?_cons_of_pos, h]]

/-- White-point classification: an xy input whose XYZ image matches no
table standard classifies as `Custom` of that XYZ image. -/
theorem from_xy_rejects (x y : ℚ)
    (h : ∀ e ∈ whitePointTable, vecApprox (xyToXyz x y) e.2 = false) :
    WhitePoint.from_xy x y = .Custom (xyToXyz x y) := by
  unfold WhitePoint.from_xy
  rw [show whitePointTable.find? (fun e => vecApprox (xyToXyz x y) e.2) =
    none from List.find?_eq_none.mpr (fun e he => by simp [h e he])]

/-! ### Evaluation lemmas for canonicalization -/

attribute [irreducible] RgbPrimaries.from_rgb_xy WhitePoint.from_xy

theorem prim_canonicalize_custom_eq (r g b : Xy) :
    (RgbPrimaries.Custom r g b).canonicalize =
      (match RgbPrimaries.from_rgb_xy r g b with
       | .Custom _ _ _ => (.Custom r g b, .error .CanonicalizationFailed)
       | p => (p, .ok ())) := rfl

theorem wp_canonicalize_custom_eq (v : Vec3) :
    (WhitePoint.Custom v).canonicalize =
      (match whitePointTable.find? (fun e => vecApprox v e.2) with
       | some e => (e.1, .ok ())
       | none => (.Custom v, .error .CanonicalizationFailed)) := rfl

theorem prim_canonicalize_matched (r g b : Xy) (p : RgbPrimaries)
    (vals : Xy × Xy × Xy) (hmem : (p, vals) ∈ primariesTable)
    (h : tripleApprox (r, g, b) vals = true) :
    (RgbPrimaries.Custom r g b).canonicalize = (p, .ok ()) := by
  have hf := from_rgb_xy_classifies r g b p vals hmem h
  simp only [primariesTable, List.mem_cons, List.not_mem_nil, or_false,
    Prod.mk.injEq] at hmem
  rcases hmem with ⟨hp, _⟩ | ⟨hp, _⟩ | ⟨hp, _⟩ <;> subst hp <;>
    rw [prim_canonicalize_custom_eq, hf]

theorem prim_canonicalize_unmatched (r g b : Xy)
    (h : ∀ e ∈ primariesTable, tripleApprox (r, g, b) e.2 = false) :
    (RgbPrimaries.Custom r g b).canonicalize =
      (.Custom r g b, .error .CanonicalizationFailed) := by
  rw [prim_canonicalize_custom_eq, from_rgb_xy_rejects r g b h]

theorem wp_canonicalize_matched (v : Vec3) (h : vecApprox v d65Xyz = true) :
    (WhitePoint.Custom v).canonicalize = (.D65, .ok ()) := by
  rw [wp_canonicalize_custom_eq, show whitePointTable.find?
    (fun e => vecApprox v e.2) = some (.D65, d65Xyz) from by
      simp only [whitePointTable, List.find?_cons_of_pos, h]]

theorem wp_canonicalize_unmatched (v : Vec3)
    (h : ∀ e ∈ whitePointTable, vecApprox v e.2 = false) :
    (WhitePoint.Custom v).canonicalize =
      (.Custom v, .error .CanonicalizationFailed) := by
  rw [wp_canonicalize_custom_eq, show whitePointTable.find?
    (fun e => vecApprox v e.2) = none from
    List.find?_eq_none.mpr (fun e he => by simp [h e he])]

/-! ### Claims about smart detection -/

/-- Claim C1: every input to `RgbPrimaries.from_rgb_xy` whose three xy
pairs are each within the absolute componentwise tolerance `1e-4` of a
named standard's fixed coordinates classifies as that named variant (not
`Custom`); in particular the perturbed BT.709 coordinates
`[0.64005,0.33005],[0.30005,0.60005],[0.15005,0.06005]` classify as
`Bt709`, as do the exact BT.709 coordinates. -/
theorem claim_C1 (r g b : Xy) (p : RgbPrimaries) (vals : Xy × Xy × Xy)
    (hmem : (p, vals) ∈ primariesTable)
    (happrox : tripleApprox (r, g, b) vals = true) :
    RgbPrimaries.from_rgb_xy r g b = p ∧
    RgbPrimaries.from_rgb_xy ⟨0.64005, 0.33005⟩ ⟨0.30005, 0.60005⟩
      ⟨0.15005, 0.06005⟩ = .Bt709 ∧
    RgbPrimaries.from_rgb_xy ⟨0.64, 0.33⟩ ⟨0.30, 0.60⟩ ⟨0.15, 0.06⟩ =
      .Bt709 := by
  refine ⟨from_rgb_xy_classifies r g b p vals hmem happrox, ?_, ?_⟩
  · exact from_rgb_xy_classifies _ _ _ .Bt709 bt709Xy
      (by simp [primariesTable])
      (by norm_num [tripleApprox, xyApprox, qApprox, qAbs, canonTol, bt709Xy])
  · exact from_rgb_xy_classifies _ _ _ .Bt709 bt709Xy
      (by simp [primariesTable])
      (show tripleApprox bt709Xy bt709Xy = true from tripleApprox_refl _)

/-- Witness for C1 at the perturbed BT.709 coordinates. -/
theorem claim_C1_witness :
    ((RgbPrimaries.Bt709, bt709Xy) ∈ primariesTable ∧
      tripleApprox (⟨0.64005, 0.33005⟩, ⟨0.30005, 0.60005⟩,
        ⟨0.15005, 0.06005⟩) bt709Xy = true) ∧
    RgbPrimaries.from_rgb_xy ⟨0.64005, 0.33005⟩ ⟨0.30005, 0.60005⟩
      ⟨0.15005, 0.06005⟩ = .Bt709 :=
  ⟨⟨by simp [primariesTable],
    by norm_num [tripleApprox, xyApprox, qApprox, qAbs, canonTol, bt709Xy]⟩,
   (claim_C1 ⟨0.64005, 0.33005⟩ ⟨0.30005, 0.60005⟩ ⟨0.15005, 0.06005⟩
      .Bt709 bt709Xy (by simp [primariesTable])
      (by norm_num [tripleApprox, xyApprox, qApprox, qAbs, canonTol,
        bt709Xy])).1⟩

/-- Claim C4: `canonicalize` on a `Custom` primaries or white-point value
matching no named standard within tolerance returns
`CanonicalizationFailed` and leaves the value as the same `Custom` value;
`CanonicalizationFailed` is the only error kind. -/
theorem claim_C4 (r g b : Xy) (v : Vec3)
    (hp : ∀ e ∈ primariesTable, tripleApprox (r, g, b) e.2 = false)
    (hw : ∀ e ∈ whitePointTable, vecApprox v e.2 = false) :
    (RgbPrimaries.Custom r g b).canonicalize =
      (.Custom r g b, .error .CanonicalizationFailed) ∧
    (WhitePoint.Custom v).canonicalize =
      (.Custom v, .error .CanonicalizationFailed) ∧
    ∀ e : ColorError, e = .CanonicalizationFailed :=
  ⟨prim_canonicalize_unmatched r g b hp, wp_canonicalize_unmatched v hw,
   fun e => by cases e; rfl⟩

/-- Witness for C4 at the test inputs `[0.7,0.3],[0.2,0.7],[0.1,0.1]` and
`[0.9,1.0,1.1]`. -/
theorem claim_C4_witness :
    (RgbPrimaries.Custom ⟨0.7, 0.3⟩ ⟨0.2, 0.7⟩ ⟨0.1, 0.1⟩).canonicalize =
      (.Custom ⟨0.7, 0.3⟩ ⟨0.2, 0.7⟩ ⟨0.1, 0.1⟩,
        .error .CanonicalizationFailed) ∧
    (WhitePoint.Custom ⟨0.9, 1.0, 1.1⟩).canonicalize =
      (.Custom ⟨0.9, 1.0, 1.1⟩, .error .CanonicalizationFailed) ∧
    ∀ e : ColorError, e = .CanonicalizationFailed :=
  claim_C4 ⟨0.7, 0.3⟩ ⟨0.2, 0.7⟩ ⟨0.1, 0.1⟩ ⟨0.9, 1.0, 1.1⟩
    (by
      intro e he
      simp only [primariesTable, List.mem_cons, List.not_mem_nil,
        or_false] at he
      rcases he with rfl | rfl | rfl <;>
        norm_num [tripleApprox, xyApprox, qApprox, qAbs, canonTol, bt709Xy,
          acesAp0Xy, acesAp1Xy])
    (by
      intro e he
      simp only [whitePointTable, List.mem_cons, List.not_mem_nil,
        or_false] at he
      subst he
      norm_num [vecApprox, qApprox, qAbs, canonTol, d65Xyz])

/-- Claim C5: `canonicalize` on a `Custom` primaries or white-point value
within tolerance of a named standard turns the value into that named
variant and returns success. -/
theorem claim_C5 (r g b : Xy) (p : RgbPrimaries) (vals : Xy × Xy × Xy)
    (v : Vec3) (hmem : (p, vals) ∈ primariesTable)
    (h : tripleApprox (r, g, b) vals = true)
    (hv : vecApprox v d65Xyz = true) :
    (RgbPrimaries.Custom r g b).canonicalize = (p, .ok ()) ∧
    (WhitePoint.Custom v).canonicalize = (.D65, .ok ()) :=
  ⟨prim_canonicalize_matched r g b p vals hmem h,
   wp_canonicalize_matched v hv⟩

/-- Witness for C5 at the exact BT.709 primaries and the exact D65 XYZ
value, matching the integration tests. -/
theorem claim_C5_witness :
    (RgbPrimaries.Custom ⟨0.64, 0.33⟩ ⟨0.30, 0.60⟩ ⟨0.15, 0.06⟩).canonicalize
      = (.Bt709, .ok ()) ∧
    (WhitePoint.Custom ⟨0.95047, 1.0, 1.08883⟩).canonicalize =
      (.D65, .ok ()) :=
  claim_C5 ⟨0.64, 0.33⟩ ⟨0.30, 0.60⟩ ⟨0.15, 0.06⟩ .Bt709 bt709Xy
    ⟨0.95047, 1.0, 1.08883⟩ (by simp [primariesTable])
    (show tripleApprox bt709Xy bt709Xy = true from tripleApprox_refl _)
    (show vecApprox d65Xyz d65Xyz = true from vecApprox_refl _)

/-- Claim C6: white-point classification compares values in XYZ
tristimulus space: an xy input whose converted XYZ value is within
tolerance of a named standard's XYZ definition classifies as that
standard; in particular `from_xy 0.31271 0.32902` and
`from_xy 0.312715 0.329025` classify as D65 while `from_xy 0.4 0.4`
yields `Custom`. -/
theorem claim_C6 (x y : ℚ) (w : WhitePoint) (xyz : Vec3)
    (hmem : (w, xyz) ∈ whitePointTable)
    (h : vecApprox (xyToXyz x y) xyz = true) :
    WhitePoint.from_xy x y = w ∧
    WhitePoint.from_xy 0.31271 0.32902 = .D65 ∧
    WhitePoint.from_xy 0.312715 0.329025 = .D65 ∧
    WhitePoint.from_xy 0.4 0.4 = .Custom (xyToXyz 0.4 0.4) := by
  refine ⟨from_xy_classifies x y w xyz hmem h, ?_, ?_, ?_⟩
  · exact from_xy_classifies _ _ .D65 d65Xyz (by simp [whitePointTable])
      (by norm_num [vecApprox, qApprox, qAbs, canonTol, xyToXyz, d65Xyz])
  · exact from_xy_classifies _ _ .D65 d65Xyz (by simp [whitePointTable])
      (by norm_num [vecApprox, qApprox, qAbs, canonTol, xyToXyz, d65Xyz])
  · refine from_xy_rejects _ _ ?_
    intro e he
    simp only [whitePointTable, List.mem_cons, List.not_mem_nil,
      or_false] at he
    subst he
    norm_num [vecApprox, qApprox, qAbs, canonTol, xyToXyz, d65Xyz]

/-- Witness for C6 at `from_xy 0.31271 0.32902`. -/
theorem claim_C6_witness :
    ((WhitePoint.D65, d65Xyz) ∈ whitePointTable ∧
      vecApprox (xyToXyz 0.31271 0.32902) d65Xyz = true) ∧
    WhitePoint.from_xy 0.31271 0.32902 = .D65 :=
  ⟨⟨by simp [whitePointTable],
    by norm_num [vecApprox, qApprox, qAbs, canonTol, xyToXyz, d65Xyz]⟩,
   (claim_C6 0.31271 0.32902 .D65 d65Xyz (by simp [whitePointTable])
      (by norm_num [vecApprox, qApprox, qAbs, canonTol, xyToXyz,
        d65Xyz])).1⟩

/-- Claim C8: `canonicalize` is idempotent on both `RgbPrimaries` and
`WhitePoint`: a second application returns the same value and the same
outcome, and canonicalizing an already-named variant such as `Bt709`
leaves it unchanged with success. -/
theorem claim_C8 :
    (∀ x : RgbPrimaries, x.canonicalize.1.canonicalize = x.canonicalize) ∧
    (∀ w : WhitePoint, w.canonicalize.1.canonicalize = w.canonicalize) ∧
    RgbPrimaries.Bt709.canonicalize = (.Bt709, .ok ()) := by
  refine ⟨?_, ?_, rfl⟩
  · intro x
    cases x with
    | Bt709 => rfl
    | AcesAp0 => rfl
    | AcesAp1 => rfl
    | Custom r g b =>
      cases hf : RgbPrimaries.from_rgb_xy r g b with
      | Custom r2 g2 b2 =>
        have h1 : (RgbPrimaries.Custom r g b).canonicalize =
            (.Custom r g b, .error .CanonicalizationFailed) := by
          rw [prim_canonicalize_custom_eq, hf]
        rw [h1]
        exact h1
      | Bt709 =>
        have h1 : (RgbPrimaries.Custom r g b).canonicalize =
            (.Bt709, .ok ()) := by
          rw [prim_canonicalize_custom_eq, hf]
        rw [h1]
        rfl
      | AcesAp0 =>
        have h1 : (RgbPrimaries.Custom r g b).canonicalize =
            (.AcesAp0, .ok ()) := by
          rw [prim_canonicalize_custom_eq, hf]
        rw [h1]
        rfl
      | AcesAp1 =>
        have h1 : (RgbPrimaries.Custom r g b).canonicalize =
            (.AcesAp1, .ok ()) := by
          rw [prim_canonicalize_custom_eq, hf]
        rw [h1]
        rfl
  · intro w
    cases w with
    | D65 => rfl
    | Custom v =>
      cases hf : whitePointTable.find? (fun e => vecApprox v e.2) with
      | none =>
        have h1 : (WhitePoint.Custom v).canonicalize =
            (.Custom v, .error .CanonicalizationFailed) := by
          rw [wp_canonicalize_custom_eq, hf]
        rw [h1]
        exact h1
      | some e =>
        have he : e = (.D65, d65Xyz) := by
          have hmem := List.mem_of_find?_eq_some hf
          simpa [whitePointTable] using hmem
        have h1 : (WhitePoint.Custom v).canonicalize = (.D65, .ok ()) := by
          rw [wp_canonicalize_custom_eq, hf, he]
        rw [h1]
        rfl


/-- Claim C10: `from_rgb_xy` accepts coordinates outside `[0,1]`,
including the negative blue-y of ACES AP0, and classifies the exact AP0
and AP1 coordinates as the corresponding named variants. -/
theorem claim_C10 :
    RgbPrimaries.from_rgb_xy ⟨0.7347, 0.2653⟩ ⟨0.0, 1.0⟩
      ⟨0.0001, -0.0770⟩ = .AcesAp0 ∧
    RgbPrimaries.from_rgb_xy ⟨0.713, 0.293⟩ ⟨0.165, 0.830⟩
      ⟨0.128, 0.044⟩ = .AcesAp1 :=
  ⟨from_rgb_xy_classifies _ _ _ .AcesAp0 acesAp0Xy
      (by simp [primariesTable])
      (show tripleApprox acesAp0Xy acesAp0Xy = true from tripleApprox_refl _),
   from_rgb_xy_classifies _ _ _ .AcesAp1 acesAp1Xy
      (by simp [primariesTable])
      (show tripleApprox acesAp1Xy acesAp1Xy = true from
        tripleApprox_refl _)⟩

/-! ### Matrix algebra lemmas -/

theorem Mat3.mul_def (m n : Mat3) : m * n = Mat3.mul m n := rfl

theorem Mat3.one_def : (1 : Mat3) = Mat3.id := rfl

theorem Mat3.diag_mul_diag (a b c d e f : ℚ) :
    Mat3.diag a b c * Mat3.diag d e f = Mat3.diag (a * d) (b * e) (c * f) := by
  ext <;> simp [Mat3.mul_def, Mat3.mul, Mat3.diag]

theorem Mat3.diag_one : Mat3.diag 1 1 1 = 1 := rfl

theorem Mat3.inverse_mul (m : Mat3) (h : m.det ≠ 0) : m.inverse * m = 1 := by
  have h2 : m.m00 * (m.m11 * m.m22 - m.m12 * m.m21) -
      m.m01 * (m.m10 * m.m22 - m.m12 * m.m20) +
      m.m02 * (m.m10 * m.m21 - m.m11 * m.m20) ≠ 0 := by
    simpa [Mat3.det] using h
  ext <;> simp [Mat3.mul_def, Mat3.mul, Mat3.inverse, Mat3.det, Mat3.one_def,
    Mat3.id] <;> field_simp <;> ring

theorem Mat3.mul_inverse (m : Mat3) (h : m.det ≠ 0) : m * m.inverse = 1 := by
  have h2 : m.m00 * (m.m11 * m.m22 - m.m12 * m.m21) -
      m.m01 * (m.m10 * m.m22 - m.m12 * m.m20) +
      m.m02 * (m.m10 * m.m21 - m.m11 * m.m20) ≠ 0 := by
    simpa [Mat3.det] using h
  ext <;> simp [Mat3.mul_def, Mat3.mul, Mat3.inverse, Mat3.det, Mat3.one_def,
    Mat3.id] <;> field_simp <;> ring

theorem Mat3.mulVec_mulVec (m n : Mat3) (v : Vec3) :
    m.mulVec (n.mulVec v) = (m * n).mulVec v := by
  ext <;> simp [Mat3.mul_def, Mat3.mul, Mat3.mulVec] <;> ring

theorem Mat3.one_mulVec (v : Vec3) : (1 : Mat3).mulVec v = v := by
  ext <;> simp [Mat3.mulVec, Mat3.one_def, Mat3.id]

/-- Left cancellation through an explicit right inverse. -/
theorem Mat3.cancel_left (q x : Mat3) (h : q * q.inverse = 1) :
    q * (q.inverse * x) = x := by
  rw [← mul_assoc, h, one_mul]

/-- Two sandwiched conjugations through inverse matrices compose to the
identity when the middle factors do. -/
theorem Mat3.sandwich (xa xb c1 c2 : Mat3) (hA : xa.det ≠ 0)
    (hB : xb.det ≠ 0) (hc : c1 * c2 = 1) :
    (xa.inverse * c1 * xb) * (xb.inverse * c2 * xa) = 1 := by
  calc (xa.inverse * c1 * xb) * (xb.inverse * c2 * xa)
      = xa.inverse * (c1 * (xb * (xb.inverse * (c2 * xa)))) := by
        simp only [mul_assoc]
    _ = xa.inverse * (c1 * (c2 * xa)) := by
        rw [Mat3.cancel_left xb (c2 * xa) (Mat3.mul_inverse xb hB)]
    _ = xa.inverse * ((c1 * c2) * xa) := by rw [← mul_assoc c1 c2 xa]
    _ = xa.inverse * xa := by rw [hc, one_mul]
    _ = 1 := Mat3.inverse_mul xa hA

/-! ### Lemmas about chromatic adaptation and the conversion pipeline -/

theorem qAbs_sub_comm (a b : ℚ) : qAbs (a - b) = qAbs (b - a) := by
  unfold qAbs
  split_ifs <;> linarith

theorem qApprox_symm (a b : ℚ) : qApprox a b = qApprox b a := by
  unfold qApprox
  rw [qAbs_sub_comm]

theorem vecApprox_symm (a b : Vec3) : vecApprox a b = vecApprox b a := by
  unfold vecApprox
  rw [qApprox_symm a.x b.x, qApprox_symm a.y b.y, qApprox_symm a.z b.z]

/-- Adapting a white point to itself short-circuits to the identity. -/
theorem cat_refl (cone : Mat3) (w : Vec3) : cat cone w w = 1 := by
  unfold cat
  rw [if_pos (vecApprox_refl w)]

theorem div_cross (a b : ℚ) (ha : a ≠ 0) (hb : b ≠ 0) :
    a / b * (b / a) = 1 := by
  rw [div_mul_div_comm, mul_comm b a, div_self (mul_ne_zero ha hb)]

/-- The two directions of chromatic adaptation between a pair of white
points are exact matrix inverses. -/
theorem cat_comp (cone : Mat3) (w1 w2 : Vec3) (hcone : cone.det ≠ 0)
    (h1x : (cone.mulVec w1).x ≠ 0) (h1y : (cone.mulVec w1).y ≠ 0)
    (h1z : (cone.mulVec w1).z ≠ 0) (h2x : (cone.mulVec w2).x ≠ 0)
    (h2y : (cone.mulVec w2).y ≠ 0) (h2z : (cone.mulVec w2).z ≠ 0) :
    cat cone w2 w1 * cat cone w1 w2 = 1 := by
  by_cases happ : vecApprox w1 w2 = true
  · have happ2 : vecApprox w2 w1 = true := by
      rw [vecApprox_symm]
      exact happ
    unfold cat
    rw [if_pos happ2, if_pos happ, one_mul]
  · have happ2 : ¬ vecApprox w2 w1 = true := by
      rw [vecApprox_symm]
      exact happ
    unfold cat
    rw [if_neg happ2, if_neg happ]
    have hd : Mat3.diag ((cone.mulVec w1).x / (cone.mulVec w2).x)
          ((cone.mulVec w1).y / (cone.mulVec w2).y)
          ((cone.mulVec w1).z / (cone.mulVec w2).z) *
        Mat3.diag ((cone.mulVec w2).x / (cone.mulVec w1).x)
          ((cone.mulVec w2).y / (cone.mulVec w1).y)
          ((cone.mulVec w2).z / (cone.mulVec w1).z) = 1 := by
      rw [Mat3.diag_mul_diag, div_cross _ _ h1x h2x, div_cross _ _ h1y h2y,
        div_cross _ _ h1z h2z, Mat3.diag_one]
    exact Mat3.sandwich cone cone _ _ hcone hcone hd

/-- The linear conversion matrices of the two directions of a space pair
are exact matrix inverses. -/
theorem linearMatrix_comp (cone : Mat3) (a b : ColorSpace)
    (hA : (rgb_to_xyz a.primaries.values a.whitePoint.values).det ≠ 0)
    (hB : (rgb_to_xyz b.primaries.values b.whitePoint.values).det ≠ 0)
    (hcone : cone.det ≠ 0)
    (hlA : (cone.mulVec a.whitePoint.values).x ≠ 0 ∧
      (cone.mulVec a.whitePoint.values).y ≠ 0 ∧
      (cone.mulVec a.whitePoint.values).z ≠ 0)
    (hlB : (cone.mulVec b.whitePoint.values).x ≠ 0 ∧
      (cone.mulVec b.whitePoint.values).y ≠ 0 ∧
      (cone.mulVec b.whitePoint.values).z ≠ 0) :
    linearMatrix cone b a * linearMatrix cone a b = 1 := by
  unfold linearMatrix
  exact Mat3.sandwich _ _ _ _ hA hB
    (cat_comp cone a.whitePoint.values b.whitePoint.values hcone
      hlA.1 hlA.2.1 hlA.2.2 hlB.1 hlB.2.1 hlB.2.2)

theorem applyInv_applyFwd (interp : TransformId → TransformPair)
    (t? : Option TransformId) (u : Vec3)
    (h : ∀ t u, (interp t).inv ((interp t).fwd u) = u) :
    applyInv interp t? (applyFwd interp t? u) = u := by
  cases t? with
  | none => rfl
  | some t => exact h t u

theorem applyFwd_applyInv (interp : TransformId → TransformPair)
    (t? : Option TransformId) (u : Vec3)
    (h : ∀ t u, (interp t).fwd ((interp t).inv u) = u) :
    applyFwd interp t? (applyInv interp t? u) = u := by
  cases t? with
  | none => rfl
  | some t => exact h t u

/-- The BT.709/D65 RGB-to-XYZ matrix is nonsingular. -/
theorem bt709_d65_det : (rgb_to_xyz bt709Xy d65Xyz).det ≠ 0 := by
  norm_num [rgb_to_xyz, xyToXyz, Mat3.inverse, Mat3.det, Mat3.mulVec,
    Mat3.mul_def, Mat3.mul, Mat3.diag, bt709Xy, d65Xyz]

theorem linearMatrix_srgb_to_oklab (cone : Mat3) :
    linearMatrix cone encodedSrgb okLab = 1 := by
  unfold linearMatrix encodedSrgb okLab
  simp only [RgbPrimaries.values, WhitePoint.values]
  rw [cat_refl, mul_one, Mat3.inverse_mul _ bt709_d65_det]

theorem linearMatrix_oklab_to_srgb (cone : Mat3) :
    linearMatrix cone okLab encodedSrgb = 1 := by
  unfold linearMatrix encodedSrgb okLab
  simp only [RgbPrimaries.values, WhitePoint.values]
  rw [cat_refl, mul_one, Mat3.inverse_mul _ bt709_d65_det]

theorem convert_srgb_to_oklab (interp : TransformId → TransformPair)
    (cone : Mat3) (u : Vec3) :
    convert interp cone encodedSrgb okLab u =
      (interp .Oklab).fwd ((interp .Srgb).inv u) := by
  unfold convert
  rw [if_neg (by decide : ¬ (encodedSrgb = okLab)),
    linearMatrix_srgb_to_oklab, Mat3.one_mulVec]
  rfl

theorem convert_oklab_to_srgb (interp : TransformId → TransformPair)
    (cone : Mat3) (u : Vec3) :
    convert interp cone okLab encodedSrgb u =
      (interp .Srgb).fwd ((interp .Oklab).inv u) := by
  unfold convert
  rw [if_neg (by decide : ¬ (okLab = encodedSrgb)),
    linearMatrix_oklab_to_srgb, Mat3.one_mulVec]
  rfl

/-! ### Claims about the conversion engine -/

/-- Claim C2: for every pair of color spaces and every vector, converting
forward and back returns the original vector.  In this exact-arithmetic
model, with the transform pairs algebraic inverses as the spec's contract
for `details::transform` requires and the derivation matrices nonsingular,
the round trip is exactly the identity (hence within any floating
tolerance). -/
theorem claim_C2 (interp : TransformId → TransformPair) (cone : Mat3)
    (a b : ColorSpace) (v : Vec3)
    (hA : (rgb_to_xyz a.primaries.values a.whitePoint.values).det ≠ 0)
    (hB : (rgb_to_xyz b.primaries.values b.whitePoint.values).det ≠ 0)
    (hcone : cone.det ≠ 0)
    (hlA : (cone.mulVec a.whitePoint.values).x ≠ 0 ∧
      (cone.mulVec a.whitePoint.values).y ≠ 0 ∧
      (cone.mulVec a.whitePoint.values).z ≠ 0)
    (hlB : (cone.mulVec b.whitePoint.values).x ≠ 0 ∧
      (cone.mulVec b.whitePoint.values).y ≠ 0 ∧
      (cone.mulVec b.whitePoint.values).z ≠ 0)
    (hpairs : ∀ t u, (interp t).inv ((interp t).fwd u) = u ∧
      (interp t).fwd ((interp t).inv u) = u) :
    convert interp cone b a (convert interp cone a b v) = v := by
  by_cases hab : a = b
  · subst hab
    unfold convert
    rw [if_pos rfl, if_pos rfl]
  · have hba : ¬ (b = a) := fun h => hab h.symm
    unfold convert
    rw [if_neg hab, if_neg hba]
    rw [applyInv_applyFwd interp b.transform
      ((linearMatrix cone a b).mulVec (applyInv interp a.transform v))
      (fun t u => (hpairs t u).1)]
    rw [Mat3.mulVec_mulVec, linearMatrix_comp cone a b hA hB hcone hlA hlB,
      Mat3.one_mulVec]
    exact applyFwd_applyInv interp a.transform v (fun t u => (hpairs t u).2)

/-- Witness for C2: linear sRGB to encoded sRGB and back at a concrete
vector, with the identity cone matrix and identity transform pairs. -/
theorem claim_C2_witness :
    convert idInterp Mat3.id encodedSrgb linearSrgb
      (convert idInterp Mat3.id linearSrgb encodedSrgb ⟨0.35, 0.75, 0.8⟩) =
      ⟨0.35, 0.75, 0.8⟩ :=
  claim_C2 idInterp Mat3.id linearSrgb encodedSrgb ⟨0.35, 0.75, 0.8⟩
    bt709_d65_det bt709_d65_det
    (by norm_num [Mat3.det, Mat3.id])
    (by norm_num [Mat3.mulVec, Mat3.id, linearSrgb,
      WhitePoint.values, d65Xyz])
    (by norm_num [Mat3.mulVec, Mat3.id, encodedSrgb,
      WhitePoint.values, d65Xyz])
    (fun t u => ⟨rfl, rfl⟩)

/-- Claim C3: converting a vector from a space to itself is exactly the
identity — the engine special-cases equal source and destination and
applies neither matrix nor transforms. -/
theorem claim_C3 (interp : TransformId → TransformPair) (cone : Mat3)
    (a : ColorSpace) (v : Vec3) : convert interp cone a a v = v := by
  unfold convert
  rw [if_pos rfl]

/-- Claim C7: chromatic adaptation between white points identical within
the floating tolerance — in particular from any white point to itself —
returns the identity matrix exactly instead of the von-Kries product. -/
theorem claim_C7 (cone : Mat3) (w1 w2 : Vec3)
    (h : vecApprox w1 w2 = true) :
    cat cone w1 w2 = Mat3.id ∧ ∀ w : Vec3, cat cone w w = Mat3.id :=
  ⟨by
    unfold cat
    rw [if_pos h]
    rfl,
   fun w => (cat_refl cone w).trans Mat3.one_def⟩

/-- Witness for C7 at the D65 white point. -/
theorem claim_C7_witness :
    vecApprox d65Xyz d65Xyz = true ∧
    cat Mat3.id d65Xyz d65Xyz = Mat3.id :=
  ⟨vecApprox_refl d65Xyz,
   (claim_C7 Mat3.id d65Xyz d65Xyz (vecApprox_refl d65Xyz)).1⟩

/-- Claim C9: the oklab example scenario — `Color::srgb(0.35, 0.75, 0.8)`
converted to Oklab, perturbed by `+0.2` on the `a` channel, and converted
back to sRGB, differs from the original color.  The model's conversion is
a total function on vectors, so out-of-gamut values are ordinary results
(components may leave `[0,1]`), never errors; the transform bodies are
abstract, constrained only by the spec's inverse-pair contract. -/
theorem claim_C9 (interp : TransformId → TransformPair) (cone : Mat3)
    (hS : ∀ u, (interp .Srgb).inv ((interp .Srgb).fwd u) = u)
    (hO : ∀ u, (interp .Oklab).fwd ((interp .Oklab).inv u) = u) :
    ∀ ok mod : Color,
      ok = (Color.srgb 0.35 0.75 0.8).to interp cone okLab →
      mod = ⟨okLab, ⟨ok.value.x, ok.value.y + 0.2, ok.value.z⟩⟩ →
      (mod.to interp cone encodedSrgb).value ≠
        (Color.srgb 0.35 0.75 0.8).value := by
  intro ok mod hok hmod heq
  subst hmod
  subst hok
  simp only [Color.to, Color.srgb] at heq
  rw [convert_srgb_to_oklab, convert_oklab_to_srgb] at heq
  have h2 := congrArg (interp .Srgb).inv heq
  rw [hS] at h2
  have h3 := congrArg (interp .Oklab).fwd h2
  rw [hO] at h3
  have h4 := congrArg Vec3.y h3
  norm_num at h4

/-- Witness for C9 with identity transform pairs and the identity cone
matrix. -/
theorem claim_C9_witness :
    ((⟨okLab, ⟨((Color.srgb 0.35 0.75 0.8).to idInterp 1 okLab).value.x,
        ((Color.srgb 0.35 0.75 0.8).to idInterp 1 okLab).value.y + 0.2,
        ((Color.srgb 0.35 0.75 0.8).to idInterp 1
          okLab).value.z⟩⟩ : Color).to idInterp 1 encodedSrgb).value ≠
      (Color.srgb 0.35 0.75 0.8).value :=
  claim_C9 idInterp 1 (fun _ => rfl) (fun _ => rfl) _ _ rfl rfl

end Kolor
